import Mathlib

/-!
Verification development for the contract-parsing and feature-derivation
pipeline in `src/python_solution/parse_data.ipynb`.

Shallow-embedding conventions:
* calendar dates and pandas timestamps are integer day numbers
  (days since 1970-01-01, all timestamps in the pipeline are midnight-aligned
  because both date parsers produce date-only values);
* pandas/NumPy floating-point numbers are rationals (`ℚ`), with the
  int64/float64 distinction kept explicitly where the code depends on it;
* dynamically typed pandas cells are an explicit variant type `PV`, a missing
  cell (NaN/NaT/None) is `Option.none`;
* fallible steps (uncaught Python exceptions) are `Except String`.
-/

namespace ParseData

/- ## Calendar dates (day numbers since 1970-01-01) -/

def isLeap (y : Int) : Bool :=
  (y % 4 == 0 && y % 100 != 0) || y % 400 == 0

def daysInMonth (y : Int) (m : Nat) : Nat :=
  if m == 2 then (if isLeap y then 29 else 28)
  else if m == 4 || m == 6 || m == 9 || m == 11 then 30
  else 31

/-- Day number of a proleptic-Gregorian civil date (days since 1970-01-01);
the standard era-based conversion, with C-style truncating division exactly
as `Int./`. -/
def daysFromCivil (y : Int) (m d : Nat) : Int :=
  let y' : Int := if m ≤ 2 then y - 1 else y
  let era : Int := (if 0 ≤ y' then y' else y' - 399) / 400
  let yoe : Int := y' - era * 400
  let mp : Int := ((m : Int) + 9) % 12
  let doy : Int := (153 * mp + 2) / 5 + (d : Int) - 1
  let doe : Int := yoe * 365 + yoe / 4 - yoe / 100 + doy
  era * 146097 + doe - 719468

/- ## Character and string helpers -/

/-- Python whitespace (space, tab, LF, CR, VT, FF), by code point. -/
def isWsChar (c : Char) : Bool :=
  match c.toNat with
  | 32 | 9 | 10 | 13 | 11 | 12 => true
  | _ => false

/-- Decimal digit test, by code point. -/
def isDigitChar (c : Char) : Bool := 48 ≤ c.toNat && c.toNat ≤ 57

def digitVal (c : Char) : Nat := c.toNat - 48

def digitsToNat (cs : List Char) : Nat :=
  cs.foldl (fun a c => a * 10 + digitVal c) 0

def allDigits (cs : List Char) : Bool := cs.all isDigitChar

def stripWs (cs : List Char) : List Char :=
  ((cs.dropWhile isWsChar).reverse.dropWhile isWsChar).reverse

/-- Split a character list on a separator character (the one-character case
of Python/pandas `str.split(sep)`). -/
def splitOnChar (sep : Char) : List Char → List (List Char)
  | [] => [[]]
  | c :: rest =>
    match splitOnChar sep rest with
    | seg :: segs => if c = sep then [] :: seg :: segs else (c :: seg) :: segs
    | [] => [[c]]

/-- Strict code-point-lexicographic comparison of character lists: the order
Python (and hence pandas `sort_values`) uses on strings. -/
def charListLt : List Char → List Char → Bool
  | _, [] => false
  | [], _ :: _ => true
  | x :: xs, y :: ys =>
    if x.toNat < y.toNat then true
    else if y.toNat < x.toNat then false
    else charListLt xs ys

/-- Python `str.split()[0]`-style leading token: drop leading whitespace and
take the maximal run of non-whitespace characters; an empty or all-whitespace
string has no token (pandas `.str[0]` then yields NaN).  Models
`df["application_date"].str.split().str[0]`. -/
def firstToken (s : String) : Option String :=
  let cs := s.toList.dropWhile isWsChar
  let tok := cs.takeWhile (fun c => !isWsChar c)
  if tok.isEmpty then none else some (String.mk tok)

/- ## Date parsing -/

/-- Shallow model of `pd.to_datetime(x, format="%d.%m.%Y", errors="coerce")`
on a string: day and month of one or two digits, year of up to four digits,
calendar-valid; result is the day number.  Unparseable gives `none` (NaT). -/
def parseDMY (s : String) : Option Int :=
  match splitOnChar '.' s.toList with
  | [dcs, mcs, ycs] =>
    if allDigits dcs && allDigits mcs && allDigits ycs &&
       decide (1 ≤ dcs.length) && decide (dcs.length ≤ 2) &&
       decide (1 ≤ mcs.length) && decide (mcs.length ≤ 2) &&
       decide (1 ≤ ycs.length) && decide (ycs.length ≤ 4) then
      let d := digitsToNat dcs
      let m := digitsToNat mcs
      let y := digitsToNat ycs
      if decide (1 ≤ m) && decide (m ≤ 12) && decide (1 ≤ d) &&
         decide (d ≤ daysInMonth (y : Int) m) then
        some (daysFromCivil (y : Int) m d)
      else none
    else none
  | _ => none

/-- Shallow model of the flexible `pd.to_datetime(x, errors="coerce")` used on
the application-date token, restricted to the ISO `yyyy-mm-dd` form the input
data uses: four-digit year, one-or-two-digit month and day, calendar-valid. -/
def parseISO (s : String) : Option Int :=
  match splitOnChar '-' s.toList with
  | [ycs, mcs, dcs] =>
    if allDigits ycs && allDigits mcs && allDigits dcs &&
       decide (ycs.length = 4) &&
       decide (1 ≤ mcs.length) && decide (mcs.length ≤ 2) &&
       decide (1 ≤ dcs.length) && decide (dcs.length ≤ 2) then
      let y := digitsToNat ycs
      let m := digitsToNat mcs
      let d := digitsToNat dcs
      if decide (1 ≤ m) && decide (m ≤ 12) && decide (1 ≤ d) &&
         decide (d ≤ daysInMonth (y : Int) m) then
        some (daysFromCivil (y : Int) m d)
      else none
    else none
  | _ => none

/- ## Numeric parsing -/

def parseIntCore (cs : List Char) : Option Int :=
  match cs with
  | '-' :: rest =>
    if !rest.isEmpty && allDigits rest then some (-(digitsToNat rest : Int)) else none
  | '+' :: rest =>
    if !rest.isEmpty && allDigits rest then some ((digitsToNat rest : Int)) else none
  | _ =>
    if !cs.isEmpty && allDigits cs then some ((digitsToNat cs : Int)) else none

def applyExp (q : ℚ) (e : Int) : ℚ :=
  if 0 ≤ e then q * (10 : ℚ) ^ e.toNat else q / (10 : ℚ) ^ (-e).toNat

def parseFloatCore (cs : List Char) : Option ℚ :=
  let (sgn, cs0) :=
    match cs with
    | '-' :: r => ((-1 : ℚ), r)
    | '+' :: r => ((1 : ℚ), r)
    | _ => ((1 : ℚ), cs)
  let ip := cs0.takeWhile isDigitChar
  let cs1 := cs0.dropWhile isDigitChar
  let (fp, cs2) :=
    match cs1 with
    | '.' :: r => (r.takeWhile isDigitChar, r.dropWhile isDigitChar)
    | _ => (([] : List Char), cs1)
  if ip.isEmpty && fp.isEmpty then none
  else
    let mant : ℚ := (digitsToNat ip : ℚ) + (digitsToNat fp : ℚ) / (10 : ℚ) ^ fp.length
    match cs2 with
    | [] => some (sgn * mant)
    | e :: r =>
      if e == 'e' || e == 'E' then
        let (esgn, r2) :=
          match r with
          | '-' :: rr => ((-1 : Int), rr)
          | '+' :: rr => ((1 : Int), rr)
          | _ => ((1 : Int), r)
        if !r2.isEmpty && allDigits r2 then
          some (sgn * applyExp mant (esgn * (digitsToNat r2 : Int)))
        else none
      else none

/-- Shallow model of `pd.to_numeric(x, errors="coerce")` on a string cell:
an integer literal gives an integer-typed value (`true` tag), another numeric
literal a float-typed value (`false` tag), anything else missing (NaN).
The non-finite literals `inf`/`nan` are modelled as missing. -/
def parseNumeric (s : String) : Option (ℚ × Bool) :=
  let cs := stripWs s.toList
  match parseIntCore cs with
  | some n => some ((n : ℚ), true)
  | none => (parseFloatCore cs).map (fun q => (q, false))

/- ## JSON values and parsing (model of Python `json.loads`) -/

/-- A decoded JSON value as produced by `json.loads`; numbers keep Python's
int/float distinction, and the non-finite floats produced by the accepted
extension literals `NaN` / `Infinity` / `-Infinity` are explicit. -/
inductive Jval where
  | null
  | bool (b : Bool)
  | int (n : Int)
  | float (q : ℚ)
  | nan
  | inf (neg : Bool)
  | str (s : String)
  | arr (elems : List Jval)
  | obj (fields : List (String × Jval))

/-- Value of one hexadecimal digit, by code point (0-9, a-f, A-F). -/
def hexVal (c : Char) : Option Nat :=
  let n := c.toNat
  if 48 ≤ n && n ≤ 57 then some (n - 48)
  else if 97 ≤ n && n ≤ 102 then some (n - 87)
  else if 65 ≤ n && n ≤ 70 then some (n - 55)
  else none

/-- Body of a JSON string literal (after the opening quote): strict mode,
escape sequences as in `json.loads`, raw control characters rejected. -/
def parseJStrAux : List Char → List Char → Option (String × List Char)
  | [], _ => none
  | c :: rest, acc =>
    if c = '"' then some (String.mk acc.reverse, rest)
    else if c = '\\' then
      match rest with
      | [] => none
      | e :: r2 =>
        if e = '"' then parseJStrAux r2 ('"' :: acc)
        else if e = '\\' then parseJStrAux r2 ('\\' :: acc)
        else if e = '/' then parseJStrAux r2 ('/' :: acc)
        else if e = 'b' then parseJStrAux r2 ('\x08' :: acc)
        else if e = 'f' then parseJStrAux r2 ('\x0c' :: acc)
        else if e = 'n' then parseJStrAux r2 ('\n' :: acc)
        else if e = 'r' then parseJStrAux r2 ('\r' :: acc)
        else if e = 't' then parseJStrAux r2 ('\t' :: acc)
        else if e = 'u' then
          match r2 with
          | h1 :: h2 :: h3 :: h4 :: r3 =>
            match hexVal h1, hexVal h2, hexVal h3, hexVal h4 with
            | some a, some b, some c3, some d =>
              parseJStrAux r3 (Char.ofNat (((a * 16 + b) * 16 + c3) * 16 + d) :: acc)
            | _, _, _, _ => none
          | _ => none
        else none
    else if c.toNat < 32 then none
    else parseJStrAux rest (c :: acc)

/-- A JSON number token: strict grammar (optional minus, no leading zeros,
optional fraction and exponent); no fraction and no exponent gives a Python
int, otherwise a float. -/
def parseJNum (cs : List Char) : Option (Jval × List Char) :=
  let neg : Bool := decide (cs.head? = some '-')
  let cs1 := if neg then cs.drop 1 else cs
  match cs1 with
  | [] => none
  | c :: _ =>
    if !isDigitChar c then none
    else
      let (ipcs, cs2) :=
        if c = '0' then ([c], cs1.tail)
        else (cs1.takeWhile isDigitChar, cs1.dropWhile isDigitChar)
      let (fpcs, cs3, hasFrac) :=
        match cs2 with
        | '.' :: r => (r.takeWhile isDigitChar, r.dropWhile isDigitChar, true)
        | _ => (([] : List Char), cs2, false)
      if hasFrac && fpcs.isEmpty then none
      else
        let expRes : Option (Option Int × List Char) :=
          match cs3 with
          | e :: r =>
            if e == 'e' || e == 'E' then
              let (esgn, r2) :=
                match r with
                | '-' :: rr => ((-1 : Int), rr)
                | '+' :: rr => ((1 : Int), rr)
                | _ => ((1 : Int), r)
              let ecs := r2.takeWhile isDigitChar
              if ecs.isEmpty then none
              else some (some (esgn * (digitsToNat ecs : Int)), r2.dropWhile isDigitChar)
            else some (none, cs3)
          | [] => some (none, cs3)
        match expRes with
        | none => none
        | some (eo, rest) =>
          let sgnq : ℚ := if neg then -1 else 1
          match eo, hasFrac with
          | none, false =>
            some (Jval.int ((if neg then -1 else 1) * (digitsToNat ipcs : Int)), rest)
          | _, _ =>
            let mant : ℚ :=
              (digitsToNat ipcs : ℚ) + (digitsToNat fpcs : ℚ) / (10 : ℚ) ^ fpcs.length
            some (Jval.float (sgnq * applyExp mant (eo.getD 0)), rest)

mutual

/-- One JSON value with leading whitespace allowed; `fuel` bounds the
recursion depth (the entry point supplies ample fuel). -/
def parseJVal : Nat → List Char → Option (Jval × List Char)
  | 0, _ => none
  | fuel + 1, cs =>
    match cs.dropWhile isWsChar with
    | [] => none
    | c :: rest =>
      if c = '\x7b' then parseJObj fuel rest
      else if c = '[' then parseJArr fuel rest
      else if c = '"' then (parseJStrAux rest []).map (fun p => (Jval.str p.1, p.2))
      else if c = 't' then
        match rest with
        | 'r' :: 'u' :: 'e' :: r => some (Jval.bool true, r)
        | _ => none
      else if c = 'f' then
        match rest with
        | 'a' :: 'l' :: 's' :: 'e' :: r => some (Jval.bool false, r)
        | _ => none
      else if c = 'n' then
        match rest with
        | 'u' :: 'l' :: 'l' :: r => some (Jval.null, r)
        | _ => none
      else if c = 'N' then
        match rest with
        | 'a' :: 'N' :: r => some (Jval.nan, r)
        | _ => none
      else if c = 'I' then
        match rest with
        | 'n' :: 'f' :: 'i' :: 'n' :: 'i' :: 't' :: 'y' :: r => some (Jval.inf false, r)
        | _ => none
      else if c = '-' then
        match rest with
        | 'I' :: 'n' :: 'f' :: 'i' :: 'n' :: 'i' :: 't' :: 'y' :: r => some (Jval.inf true, r)
        | _ => parseJNum (c :: rest)
      else parseJNum (c :: rest)

/-- Object body after the opening brace. -/
def parseJObj : Nat → List Char → Option (Jval × List Char)
  | 0, _ => none
  | fuel + 1, cs =>
    match cs.dropWhile isWsChar with
    | '\x7d' :: r => some (Jval.obj [], r)
    | _ => parseJMembers fuel cs []

/-- Members of a non-empty object: `"key" : value` pairs separated by commas,
closed by a brace. -/
def parseJMembers : Nat → List Char → List (String × Jval) → Option (Jval × List Char)
  | 0, _, _ => none
  | fuel + 1, cs, acc =>
    match cs.dropWhile isWsChar with
    | '"' :: r =>
      match parseJStrAux r [] with
      | none => none
      | some (k, r2) =>
        match r2.dropWhile isWsChar with
        | ':' :: r3 =>
          match parseJVal fuel r3 with
          | none => none
          | some (v, r4) =>
            match r4.dropWhile isWsChar with
            | ',' :: r5 => parseJMembers fuel r5 (acc ++ [(k, v)])
            | '\x7d' :: r5 => some (Jval.obj (acc ++ [(k, v)]), r5)
            | _ => none
        | _ => none
    | _ => none

/-- Array body after the opening bracket. -/
def parseJArr : Nat → List Char → Option (Jval × List Char)
  | 0, _ => none
  | fuel + 1, cs =>
    match cs.dropWhile isWsChar with
    | ']' :: r => some (Jval.arr [], r)
    | _ => parseJElems fuel cs []

/-- Elements of a non-empty array: values separated by commas, closed by a
bracket. -/
def parseJElems : Nat → List Char → List Jval → Option (Jval × List Char)
  | 0, _, _ => none
  | fuel + 1, cs, acc =>
    match parseJVal fuel cs with
    | none => none
    | some (v, r) =>
      match r.dropWhile isWsChar with
      | ',' :: r2 => parseJElems fuel r2 (acc ++ [v])
      | ']' :: r2 => some (Jval.arr (acc ++ [v]), r2)
      | _ => none

end

/-- Shallow model of Python `json.loads`: one JSON value with surrounding
whitespace, including the extension literals `NaN`, `Infinity` and
`-Infinity` that `json.loads` accepts by default; leftover input or a
syntax error is a `json.JSONDecodeError`. -/
def jsonParse (s : String) : Except String Jval :=
  let cs := s.toList
  match parseJVal (3 * cs.length + 8) cs with
  | some (v, rest) =>
    if (rest.dropWhile isWsChar).isEmpty then Except.ok v
    else Except.error "JSONDecodeError: Extra data"
  | none => Except.error "JSONDecodeError: Expecting value"

/- ## Pandas cell values and table rows -/

/-- Dynamically typed pandas cell: string, integer, float, datetime (day
number), boolean, or an unconverted nested JSON value; a missing cell
(NaN/NaT/None) is `Option.none` around this type. -/
inductive PV where
  | s (v : String)
  | i (v : Int)
  | f (v : ℚ)
  | d (day : Int)
  | b (v : Bool)
  | j (v : Jval)

/-- One raw input record of `data.csv`: columns `id`, `application_date`,
`contracts` (the latter two possibly missing). -/
structure RawRecord where
  id : Int
  application_date : Option String
  contracts : Option String
deriving DecidableEq

/-- One row of the normalized contract table produced by `parse_contracts`. -/
structure Row where
  id : Int
  application_date : Option PV
  contract_id : Option PV
  bank : Option PV
  summa : Option PV
  loan_summa : Option PV
  claim_date : Option PV
  claim_id : Option PV
  contract_date : Option PV

/- ## Normalizer (`parse_contracts`) -/

/-- Strict comparison on optional strings as `sort_values` orders a text
column: lexicographic on present values, missing (NaN) placed last. -/
def optStrLT (a b : Option String) : Bool :=
  match a, b with
  | some x, some y => charListLt x.toList y.toList
  | some _, none => true
  | none, _ => false

/-- The `sort_values(by=["id", "application_date", "contracts"])` key order:
lexicographic on the three columns, ascending, missing values last. -/
def recLE (a b : RawRecord) : Bool :=
  decide (a.id < b.id) ||
    (a.id == b.id &&
      (optStrLT a.application_date b.application_date ||
        (a.application_date == b.application_date &&
          (optStrLT a.contracts b.contracts || a.contracts == b.contracts))))

/-- Insert a record after every already-placed record that compares `≤` to
it, so equal keys keep their original relative order (the tie order is
unobservable anyway: records equal in all three columns are equal). -/
def insRec (r : RawRecord) : List RawRecord → List RawRecord
  | [] => [r]
  | x :: xs => if recLE x r then x :: insRec r xs else r :: x :: xs

/-- Model of `data.sort_values(by=["id", "application_date", "contracts"])`. -/
def sortRecords (l : List RawRecord) : List RawRecord :=
  l.foldl (fun acc r => insRec r acc) []

/-- Model of `.drop_duplicates(subset=["contracts"], keep="last")`: keep a
record only if no later record has an equal `contracts` cell (pandas treats
missing cells as equal to each other here). -/
def dedupKeepLast : List RawRecord → List RawRecord
  | [] => []
  | r :: rs =>
    if rs.any (fun r2 => r2.contracts == r.contracts) then dedupKeepLast rs
    else r :: dedupKeepLast rs

/-- Python `dict.get(k)` on a decoded JSON object: the last binding of a
duplicate key wins; a missing key and an explicit JSON `null` both give
`None`, i.e. a missing pandas cell.  A decoded `NaN` field is also a missing
cell (every downstream test — `notna`, skipna sums, coercions — treats a
float nan exactly as missing); a decoded `Infinity` stays an unconverted
value, whose numeric coercion this model conservatively sends to missing. -/
def getField (fields : List (String × Jval)) (k : String) : Option PV :=
  match ((fields.filter (fun p => p.1 == k)).getLast?).map Prod.snd with
  | none => none
  | some Jval.null => none
  | some Jval.nan => none
  | some (Jval.str v) => some (PV.s v)
  | some (Jval.int n) => some (PV.i n)
  | some (Jval.float q) => some (PV.f q)
  | some (Jval.bool b) => some (PV.b b)
  | some v => some (PV.j v)

/-- The normalized row appended for one contract object of one record. -/
def mkRow (rec : RawRecord) (fields : List (String × Jval)) : Row where
  id := rec.id
  application_date := rec.application_date.map PV.s
  contract_id := getField fields "contract_id"
  bank := getField fields "bank"
  summa := getField fields "summa"
  loan_summa := getField fields "loan_summa"
  claim_date := getField fields "claim_date"
  claim_id := getField fields "claim_id"
  contract_date := getField fields "contract_date"

/-- Rows for the elements of a decoded JSON array: objects become rows; a
non-object element raises `AttributeError` (`.get` on a non-dict), which
`parse_contracts` does not catch. -/
def elemRows (rec : RawRecord) : List Jval → Except String (List Row)
  | [] => .ok []
  | Jval.obj fields :: rest => (elemRows rec rest).map (fun rs => mkRow rec fields :: rs)
  | _ :: _ => .error "AttributeError: object has no attribute get"

/-- Rows contributed by one surviving record: a missing or empty `contracts`
cell and a JSON decode error are silently skipped (`continue`); a decoded
dict is wrapped in a one-element list; iterating any other decoded value
either yields nothing (the empty string) or raises an uncaught exception
(`TypeError` for non-iterables, `AttributeError` for `.get` on a non-dict
element, the first character of a non-empty string). -/
def recordRows (rec : RawRecord) : Except String (List Row) :=
  match rec.contracts with
  | none => .ok []
  | some s =>
    if s = "" then .ok []
    else
      match jsonParse s with
      | .error _ => .ok []
      | .ok (Jval.obj fields) => .ok [mkRow rec fields]
      | .ok (Jval.arr elems) => elemRows rec elems
      | .ok (Jval.str s2) =>
        if s2 = "" then .ok []
        else .error "AttributeError: str object has no attribute get"
      | .ok _ => .error "TypeError: object is not iterable"

/-- Row accumulation of the `iterrows` loop over the surviving records; an
uncaught exception aborts the whole loop. -/
def rowsLoop : List RawRecord → Except String (List Row)
  | [] => .ok []
  | r :: rs => do
    let a ← recordRows r
    let b ← rowsLoop rs
    return a ++ b

/-- Model of `parse_contracts`: sort by (id, application_date, contracts),
drop duplicate `contracts` keeping the last occurrence, then expand each
surviving record's JSON payload into normalized rows. -/
def parse_contracts (data : List RawRecord) : Except String (List Row) :=
  rowsLoop (dedupKeepLast (sortRecords data))

/- ## Type Coercer (`convert_data_types`) -/

/-- Elementwise `pd.to_datetime(col, format="%d.%m.%Y", errors="coerce")`:
strings are parsed, already-converted datetimes pass through, anything else
coerces to missing. -/
def cellDMY : Option PV → Option PV
  | some (PV.s s) => (parseDMY s).map PV.d
  | some (PV.d x) => some (PV.d x)
  | some _ => none
  | none => none

/-- Elementwise numeric reading for `pd.to_numeric(col, errors="coerce")`:
the value together with an is-integer tag used for the column dtype. -/
def numRead : Option PV → Option (ℚ × Bool)
  | some (PV.s s) => parseNumeric s
  | some (PV.i n) => some ((n : ℚ), true)
  | some (PV.f q) => some (q, false)
  | some (PV.b b) => some ((if b then 1 else 0 : ℚ), true)
  | some _ => none
  | none => none

/-- Column dtype inferred by `pd.to_numeric`: int64 exactly when every cell
is present and integer-valued, float64 otherwise. -/
def numColInt (cells : List (Option PV)) : Bool :=
  cells.all (fun c =>
    match numRead c with
    | some (_, true) => true
    | _ => false)

def numCell (colInt : Bool) (c : Option PV) : Option PV :=
  match numRead c with
  | none => none
  | some (q, _) => if colInt then some (PV.i q.num) else some (PV.f q)

/-- The application-date `.str` accessor requires a string-like column; on an
already-converted (datetime) column it raises `AttributeError`.  (An
all-missing column — float64 NaN in pandas, which would also raise — does
not occur in this pipeline and is modelled as string-like.) -/
def strAccessorOk (cells : List (Option PV)) : Bool :=
  cells.all (fun c =>
    match c with
    | some (PV.s _) => true
    | none => true
    | some _ => false)

/-- Elementwise application-date conversion:
`.str.split().str[0]` then flexible `pd.to_datetime(errors="coerce")`. -/
def appDateCell : Option PV → Option PV
  | some (PV.s s) => ((firstToken s).bind parseISO).map PV.d
  | _ => none

/-- The common (date/numeric) part of `convert_data_types` applied to one
row, the two numeric column dtypes precomputed over the whole table. -/
def coerceCommon (sInt lInt : Bool) (r : Row) : Row :=
  { r with
    claim_date := cellDMY r.claim_date
    contract_date := cellDMY r.contract_date
    summa := numCell sInt r.summa
    loan_summa := numCell lInt r.loan_summa }

/-- The `by_explode = True` variant of the coercion: only the two date and
two amount columns. -/
def coerceTrue (df : List Row) : List Row :=
  let sInt := numColInt (df.map (·.summa))
  let lInt := numColInt (df.map (·.loan_summa))
  df.map (coerceCommon sInt lInt)

/-- Model of `convert_data_types(df, by_explode)`: with `by_explode = False`
it first coerces `id` to Int64 (already exact in this model) and rewrites
`application_date` through the string accessor — raising `AttributeError`
when that column is not string-typed — and then both variants convert the
two date columns (fixed format, coercing) and the two amount columns
(numeric, coercing, column dtype inferred from the values). -/
def convert_data_types (by_explode : Bool) (df : List Row) : Except String (List Row) :=
  if by_explode then .ok (coerceTrue df)
  else
    if strAccessorOk (df.map (·.application_date)) then
      .ok (coerceTrue (df.map (fun r =>
        { r with application_date := appDateCell r.application_date })))
    else .error "AttributeError: Can only use .str accessor with string values"

/- ## Feature aggregators -/

/-- Sorted duplicate-free insertion of a group key. -/
def insertId (i : Int) : List Int → List Int
  | [] => [i]
  | x :: xs => if i = x then x :: xs else if x < i then x :: insertId i xs else i :: x :: xs

/-- The keys of `df.groupby("id")`: distinct ids in ascending order. -/
def groupIds (df : List Row) : List Int :=
  (df.map (·.id)).foldl (fun acc i => insertId i acc) []

/-- The rows of one group, in table order. -/
def groupRows (i : Int) (df : List Row) : List Row :=
  df.filter (fun r => r.id == i)

/-- The group's application date, `sub_df["application_date"].iloc[0]`, as a
day number when the first row's cell is a converted date (groups are never
empty in the pipeline). -/
def groupAppDate (rows : List Row) : Option Int :=
  match rows with
  | [] => none
  | r :: _ =>
    match r.application_date with
    | some (PV.d a) => some a
    | _ => none

/-- Per-group body of `calculate_tot_claim_cnt_l180d`: count the rows whose
claim date falls in the inclusive 180-day window up to the application date
(comparisons against a missing date are false, as in pandas), else the
sentinel -3. -/
def claims_in_last_180_days (rows : List Row) : Int :=
  let app := groupAppDate rows
  let valid := rows.countP (fun r =>
    match r.claim_date, app with
    | some (PV.d c), some a => decide (a - 180 ≤ c) && decide (c ≤ a)
    | _, _ => false)
  if 0 < valid then (valid : Int) else -3

/-- Model of `calculate_tot_claim_cnt_l180d`: one `(id, value)` pair per
group, ids ascending. -/
def calculate_tot_claim_cnt_l180d (df : List Row) : List (Int × Int) :=
  (groupIds df).map (fun i => (i, claims_in_last_180_days (groupRows i df)))

/-- A Python scalar returned by a grouped reduction, with the int/float
distinction pandas uses for the result column's dtype. -/
inductive PyScalar where
  | int (n : Int)
  | float (q : ℚ)
deriving DecidableEq

def PyScalar.isFloat : PyScalar → Bool
  | .int _ => false
  | .float _ => true

def PyScalar.toRat : PyScalar → ℚ
  | .int n => (n : ℚ)
  | .float q => q

def excludedBanks : List String := ["LIZ", "LOM", "MKO", "SUG"]

/-- The row filter of `sum_loans_wo_tbc`: bank present, not `isin` the
exclusion list (whose trailing `None` only re-matches missing banks), and
contract date present. -/
def disbRowOk (r : Row) : Bool :=
  r.bank.isSome &&
    !(match r.bank with
      | none => true
      | some (PV.s s) => excludedBanks.contains s
      | some _ => false) &&
    r.contract_date.isSome

/-- The numeric value of a converted amount cell. -/
def cellNum : Option PV → Option ℚ
  | some (PV.i n) => some ((n : ℚ))
  | some (PV.f q) => some q
  | _ => none

/-- Per-group body of `calculate_disb_bank_loan_wo_tbc`, given the
`loan_summa` column dtype (float64 when `lFloat`): filter, sum (skipping
missing values, as `.sum()` does), then branch exactly as the code does —
no surviving row gives the Python int -1, a non-positive sum the Python int
-3, and a positive sum the column-typed NumPy sum. -/
def sum_loans_wo_tbc (lFloat : Bool) (rows : List Row) : PyScalar :=
  let valid := rows.filter disbRowOk
  let total : ℚ := ((valid.map (·.loan_summa)).filterMap cellNum).sum
  if valid.isEmpty then .int (-1)
  else if 0 < total then (if lFloat then .float total else .int total.num)
  else .int (-3)

/-- The `loan_summa` column dtype of a coerced table: float64 unless every
cell is a present integer (matching `numColInt` at coercion time). -/
def loanColFloat (df : List Row) : Bool :=
  !(df.all (fun r =>
    match r.loan_summa with
    | some (PV.i _) => true
    | _ => false))

/-- The raw per-group results of `calculate_disb_bank_loan_wo_tbc`. -/
def disbRawResults (df : List Row) : List (Int × PyScalar) :=
  (groupIds df).map (fun i => (i, sum_loans_wo_tbc (loanColFloat df) (groupRows i df)))

/-- Model of `calculate_disb_bank_loan_wo_tbc`: the per-group results with
pandas' dtype inference for the resulting column — a mix of Python ints and
NumPy floats is upcast to float64, an all-int result column stays int64. -/
def calculate_disb_bank_loan_wo_tbc (df : List Row) : List (Int × PyScalar) :=
  let raw := disbRawResults df
  if raw.any (fun p => p.2.isFloat) then
    raw.map (fun p => (p.1, PyScalar.float p.2.toRat))
  else raw

/-- The surviving rows of `days_since_last_loan`: declared amount present and
strictly positive. -/
def dayValidLoans (rows : List Row) : List Row :=
  rows.filter (fun r =>
    match cellNum r.summa with
    | some q => decide (0 < q)
    | none => false)

/-- `valid_loans["contract_date"].max()`: maximum present contract date,
missing (NaT) when none is present. -/
def lastLoanDate (rows : List Row) : Option Int :=
  ((dayValidLoans rows).filterMap (fun r =>
    match r.contract_date with
    | some (PV.d x) => some x
    | _ => none)).max?

/-- Per-group body of `calculate_day_sinlastloan`: no valid loan gives -1;
otherwise the day difference (application date minus last loan date) if it
is positive, else -3 — a missing difference (NaT application date or NaT
maximum) compares as not-greater-than-zero and also gives -3. -/
def days_since_last_loan (rows : List Row) : Int :=
  let valid := dayValidLoans rows
  if valid.isEmpty then -1
  else
    match groupAppDate rows, lastLoanDate rows with
    | some a, some l => if 0 < a - l then a - l else -3
    | _, _ => -3

/-- Model of `calculate_day_sinlastloan`. -/
def calculate_day_sinlastloan (df : List Row) : List (Int × Int) :=
  (groupIds df).map (fun i => (i, days_since_last_loan (groupRows i df)))

/- ## Assembler (`features_df`) -/

/-- Cell equality as `drop_duplicates` compares application-date cells
(missing equals missing; the unconverted-JSON case cannot occur in that
column and is compared unequal). -/
def cellEq (a b : Option PV) : Bool :=
  match a, b with
  | none, none => true
  | some (PV.s x), some (PV.s y) => x == y
  | some (PV.i x), some (PV.i y) => x == y
  | some (PV.f x), some (PV.f y) => x == y
  | some (PV.d x), some (PV.d y) => x == y
  | some (PV.b x), some (PV.b y) => x == y
  | _, _ => false

/-- Keep the first occurrence of each (id, application date) pair (pairs
already seen are dropped). -/
def dedupPairsAux (seen : List (Int × Option PV)) :
    List (Int × Option PV) → List (Int × Option PV)
  | [] => []
  | p :: ps =>
    if seen.any (fun q => q.1 == p.1 && cellEq q.2 p.2) then dedupPairsAux seen ps
    else p :: dedupPairsAux (p :: seen) ps

def dedupPairsKeepFirst (l : List (Int × Option PV)) : List (Int × Option PV) :=
  dedupPairsAux [] l

/-- Model of `data[["id", "application_date"]].drop_duplicates()`. -/
def application_dates (df : List Row) : List (Int × Option PV) :=
  dedupPairsKeepFirst (df.map (fun r => (r.id, r.application_date)))

/-- One row of the final `features_df` output table. -/
structure OutRow where
  id : Int
  application_date : Option PV
  tot_claim_cnt_l180d : Int
  disb_bank_loan_wo_tbc : PyScalar
  day_sinlastloan : Int

/-- Model of the `features_df` merge chain: inner joins on `id` of the three
feature frames (all keyed by the same ascending group ids) and the distinct
(id, application date) pairs, with the final column selection. -/
def features_df (df : List Row) : List OutRow :=
  let t := calculate_tot_claim_cnt_l180d df
  let d := calculate_disb_bank_loan_wo_tbc df
  let dsl := calculate_day_sinlastloan df
  let appDates := application_dates df
  t.flatMap (fun ti =>
    (d.filter (fun di => di.1 == ti.1)).flatMap (fun di =>
      (dsl.filter (fun si => si.1 == ti.1)).flatMap (fun si =>
        (appDates.filter (fun p => p.1 == ti.1)).map (fun p =>
          { id := ti.1
            application_date := p.2
            tot_claim_cnt_l180d := ti.2
            disb_bank_loan_wo_tbc := di.2
            day_sinlastloan := si.2 }))))

/-- The whole pipeline of the executed cells: parse, coerce
(`by_explode=False`), aggregate, assemble.  An empty normalized table loses
its columns (`pd.DataFrame([])` from an empty row list), so the subsequent
column accesses raise `KeyError` — modelled as a fatal error. -/
def pipeline (records : List RawRecord) : Except String (List OutRow) :=
  match parse_contracts records with
  | .error e => .error e
  | .ok rows =>
    if rows.isEmpty then .error "KeyError: id"
    else
      match convert_data_types false rows with
      | .error e => .error e
      | .ok crows => .ok (features_df crows)

/- ## Concrete inputs used by witnesses and counterexamples -/

/-- Scenario A of the spec (claim C2): one contract with bank ALPHA, declared
as loan_summa only (no summa field). -/
def recA : RawRecord :=
  ⟨1, some "2024-03-01",
    some "[\x7b\"bank\":\"ALPHA\",\"loan_summa\":\"1000\",\"contract_date\":\"01.01.2024\",\"claim_date\":\"01.01.2024\"\x7d]"⟩

/-- Scenario B of the spec (claim C8): a single contract from an excluded
bank. -/
def recB : RawRecord :=
  ⟨2, some "2024-03-01",
    some "[\x7b\"bank\":\"MKO\",\"loan_summa\":\"500\",\"contract_date\":\"01.01.2024\"\x7d]"⟩

/-- Scenario C of the spec (claim C1): a record whose contracts payload is
null (a missing CSV cell). -/
def rec3 : RawRecord := ⟨3, some "2024-01-01", none⟩

/-- Scenario E of the spec (claim C4): one contract with a positive declared
summa one month before the application date. -/
def recE : RawRecord :=
  ⟨5, some "2024-02-01", some "[\x7b\"summa\":\"750\",\"contract_date\":\"01.01.2024\"\x7d]"⟩

/-- Claim C9's counterexample record: `"5"` is valid JSON but of the wrong
top-level shape (a bare number). -/
def rec9 : RawRecord := ⟨7, some "2024-01-01", some "5"⟩

/-- Claim C9's second counterexample record: an array whose element is not an
object. -/
def rec9arr : RawRecord := ⟨8, some "2024-01-01", some "[5]"⟩

/-- Claim C9's third counterexample record: the Python extension literal
`NaN`, which `json.loads` decodes to a float by default. -/
def rec9nan : RawRecord := ⟨10, some "2024-01-01", some "NaN"⟩

/-- Scenario D of the spec (claim C6), earlier record: same id and contracts
text as `recD2`, earlier application date. -/
def recD1 : RawRecord := ⟨4, some "2024-01-01", some "[\x7b\"summa\":\"1\"\x7d]"⟩

/-- Scenario D of the spec (claim C6), later record. -/
def recD2 : RawRecord := ⟨4, some "2024-02-02", some "[\x7b\"summa\":\"1\"\x7d]"⟩

/- ## Specification-side definitions and concrete tables used by claims -/

/-- The input of claims C1's counterexample and witness: one application with
a parseable contract (Scenario A) and one whose contracts payload is null
(Scenario C). -/
def c1recs : List RawRecord := [recA, rec3]

def c1rows : List Row := (parse_contracts c1recs).toOption.getD []

def c1out : List OutRow := (pipeline c1recs).toOption.getD []

/-- Specification-side filter of C3, transcribed from the claim's words: bank
present and not in the set LIZ/LOM/MKO/SUG, and contract date present. -/
def disbSpecOk (r : Row) : Bool :=
  (match r.bank with
   | some (PV.s v) => !(v == "LIZ" || v == "LOM" || v == "MKO" || v == "SUG")
   | some _ => true
   | none => false) &&
  r.contract_date.isSome

/-- Specification-side value of C3, transcribed from the claim: -1 when no
row survives the filter, else the sum of present loan amounts over surviving
rows, a non-positive sum replaced by -3. -/
def disbSpec (rows : List Row) : ℚ :=
  let surv := rows.filter disbSpecOk
  if surv.isEmpty then -1
  else
    let s := (surv.filterMap (fun r => cellNum r.loan_summa)).sum
    if s ≤ 0 then -3 else s

/-- The input rows for Scenario E, parsed and coerced. -/
def rowsE : List Row := (parse_contracts [recE]).toOption.getD []

def crowsE : List Row := (convert_data_types false rowsE).toOption.getD []

/-- Specification-side count of C5, transcribed from the claim: the number of
rows whose claim date lies in the inclusive window [A - 180 days, A]. -/
def specWindowCount (a : Int) (rows : List Row) : Nat :=
  rows.countP (fun r =>
    match r.claim_date with
    | some (PV.d c) => decide (a - 180 ≤ c ∧ c ≤ a)
    | _ => false)

/-- The input rows for Scenario A, parsed and coerced. -/
def rowsA : List Row := (parse_contracts [recA]).toOption.getD []

def crowsA : List Row := (convert_data_types false rowsA).toOption.getD []

/-- A one-row normalized table whose application date is a plain ISO string
and whose other cells are missing. -/
def c7df0 : List Row :=
  [⟨11, some (PV.s "2024-03-01"), none, none, none, none, none, none, none⟩]

def c7df1 : List Row := (convert_data_types false c7df0).toOption.getD []

/-- Scenario B's converted one-group table. -/
def crowsB : List Row :=
  (convert_data_types false ((parse_contracts [recB]).toOption.getD [])).toOption.getD []

/-- The recoverable degenerate contracts payloads of C9: a missing cell, the
empty string, or text that is not decodable JSON. -/
def skippableContracts (r : RawRecord) : Prop :=
  r.contracts = none ∨ r.contracts = some "" ∨
    ∃ s e, r.contracts = some s ∧ jsonParse s = Except.error e

/-- The concrete record list of C9's witness: one null payload, one empty
string, one undecodable text. -/
def recs9w : List RawRecord :=
  [rec3, ⟨4, none, some ""⟩, ⟨6, some "x", some "not json"⟩]

/-- A one-row group with a positive summa and a missing contract date. -/
def c10rows : List Row := [⟨9, none, none, none, some (PV.f 750), none, none, none, none⟩]

/- ## General lemmas -/

theorem getLast?_cons_of_ne_nil {α : Type} (a : α) {l : List α} (h : l ≠ []) :
    (a :: l).getLast? = l.getLast? := by
  cases l with
  | nil => exact absurd rfl h
  | cons b t => exact List.getLast?_cons_cons

/-- Filtering the deduplicated list down to one contracts text gives exactly
the last element of the filtered original list: `keep="last"` keeps, for each
contracts value, its final occurrence only. -/
theorem filter_dedupKeepLast (l : List RawRecord) (s : String) :
    (dedupKeepLast l).filter (fun r => r.contracts == some s) =
      ((l.filter (fun r => r.contracts == some s)).getLast?).toList := by
  induction l with
  | nil => simp [dedupKeepLast]
  | cons r rs ih =>
    rw [dedupKeepLast]
    cases hdup : rs.any (fun r2 => r2.contracts == r.contracts) with
    | true =>
      simp only [if_pos rfl]
      rw [List.filter_cons]
      by_cases hp : (r.contracts == some s) = true
      · rw [if_pos hp, getLast?_cons_of_ne_nil]
        · exact ih
        · rcases List.any_eq_true.1 hdup with ⟨r2, hr2, he⟩
          have : (r2.contracts == some s) = true := by
            rw [beq_iff_eq] at he hp ⊢
            rw [he, hp]
          exact List.ne_nil_of_mem (List.mem_filter.2 ⟨hr2, by simpa using this⟩)
      · rw [if_neg hp]
        exact ih
    | false =>
      simp only [Bool.false_eq_true, if_false]
      rw [List.filter_cons, List.filter_cons]
      by_cases hp : (r.contracts == some s) = true
      · rw [if_pos hp, if_pos hp]
        have hnil : rs.filter (fun r2 => r2.contracts == some s) = [] := by
          rw [List.filter_eq_nil_iff]
          intro r2 hr2 hps
          have : (r2.contracts == r.contracts) = true := by
            rw [beq_iff_eq] at hps hp ⊢
            rw [hps, hp]
          have hc : rs.any (fun r2 => r2.contracts == r.contracts) = true :=
            List.any_eq_true.2 ⟨r2, hr2, by simpa using this⟩
          rw [hc] at hdup
          exact Bool.noConfusion hdup
        rw [hnil] at ih ⊢
        rw [ih]
        rfl
      · rw [if_neg hp, if_neg hp]
        exact ih

theorem mem_insRec {x r : RawRecord} {l : List RawRecord} :
    x ∈ insRec r l → x = r ∨ x ∈ l := by
  induction l with
  | nil => simp [insRec]
  | cons a t ih =>
    rw [insRec]
    split
    · intro hx
      rcases List.mem_cons.1 hx with h | h
      · exact Or.inr (List.mem_cons.2 (Or.inl h))
      · rcases ih h with h2 | h2
        · exact Or.inl h2
        · exact Or.inr (List.mem_cons.2 (Or.inr h2))
    · intro hx
      rcases List.mem_cons.1 hx with h | h
      · exact Or.inl h
      · exact Or.inr h

theorem mem_foldl_insRec {x : RawRecord} :
    ∀ (l acc : List RawRecord),
      x ∈ l.foldl (fun acc r => insRec r acc) acc → x ∈ acc ∨ x ∈ l
  | [], _, h => Or.inl h
  | r :: rs, acc, h => by
    rcases mem_foldl_insRec rs (insRec r acc) h with h2 | h2
    · rcases mem_insRec h2 with h3 | h3
      · exact Or.inr (List.mem_cons.2 (Or.inl h3))
      · exact Or.inl h3
    · exact Or.inr (List.mem_cons.2 (Or.inr h2))

theorem mem_sortRecords {x : RawRecord} {l : List RawRecord}
    (h : x ∈ sortRecords l) : x ∈ l := by
  rcases mem_foldl_insRec l [] h with h2 | h2
  · cases h2
  · exact h2

theorem mem_dedupKeepLast {x : RawRecord} {l : List RawRecord}
    (h : x ∈ dedupKeepLast l) : x ∈ l := by
  induction l with
  | nil => cases h
  | cons r rs ih =>
    rw [dedupKeepLast] at h
    split at h
    · exact List.mem_cons.2 (Or.inr (ih h))
    · rcases List.mem_cons.1 h with h2 | h2
      · exact List.mem_cons.2 (Or.inl h2)
      · exact List.mem_cons.2 (Or.inr (ih h2))

theorem rowsLoop_singleton (r : RawRecord) : rowsLoop [r] = recordRows r := by
  rw [rowsLoop]
  cases h : recordRows r with
  | error e => rfl
  | ok a => show Except.ok (a ++ []) = Except.ok a; rw [List.append_nil]

theorem charListLt_irrefl : ∀ (xs : List Char), charListLt xs xs = false
  | [] => rfl
  | x :: xs => by
    rw [charListLt]
    rw [if_neg (Nat.lt_irrefl _), if_neg (Nat.lt_irrefl _)]
    exact charListLt_irrefl xs

theorem charListLt_asymm : ∀ (xs ys : List Char),
    charListLt xs ys = true → charListLt ys xs = false
  | [], [], h => by simp [charListLt] at h
  | [], _ :: _, _ => by rw [charListLt]
  | _ :: _, [], h => by simp [charListLt] at h
  | x :: xs, y :: ys, h => by
    rw [charListLt] at h ⊢
    by_cases h1 : x.toNat < y.toNat
    · rw [if_neg (Nat.lt_asymm h1), if_pos h1]
    · by_cases h2 : y.toNat < x.toNat
      · rw [if_neg h1, if_pos h2] at h
        exact Bool.noConfusion h
      · rw [if_neg h1, if_neg h2] at h
        rw [if_neg h2, if_neg h1]
        exact charListLt_asymm xs ys h

theorem charListLt_ne (xs ys : List Char) (h : charListLt xs ys = true) :
    xs ≠ ys := by
  intro he
  rw [he, charListLt_irrefl] at h
  exact Bool.noConfusion h

/- ## Claim C6 -/

/-- C6: the Normalizer orders raw records ascending by (identifier,
application date, raw contracts text) and, among any set of raw records whose
raw contracts text is byte-identical, only the record coming last in that
order contributes contract rows (the filtered survivor list is exactly the
last sorted occurrence); in particular, for two records with the same id,
identical contracts text and different application dates, exactly one set of
contract rows is emitted, from the later-sorted record — whichever order the
two records arrive in. -/
theorem c6_dedup_keeps_last_sorted (data : List RawRecord) (s : String)
    (r1 r2 : RawRecord) (a1 a2 : String)
    (hid : r1.id = r2.id) (hc1 : r1.contracts = some s) (hc2 : r2.contracts = some s)
    (hd1 : r1.application_date = some a1) (hd2 : r2.application_date = some a2)
    (hlt : charListLt a1.toList a2.toList = true) :
    (dedupKeepLast (sortRecords data)).filter (fun r => r.contracts == some s) =
        (((sortRecords data).filter (fun r => r.contracts == some s)).getLast?).toList ∧
      parse_contracts [r1, r2] = recordRows r2 ∧
      parse_contracts [r2, r1] = recordRows r2 := by
  have hasym := charListLt_asymm _ _ hlt
  have hne : ¬ (a2 = a1) := fun h => charListLt_ne _ _ hlt (by rw [h])
  have hle : recLE r1 r2 = true := by
    simp [recLE, hid, hd1, hd2, optStrLT, String.toList] at hlt ⊢
    exact Or.inl hlt
  have hnle : recLE r2 r1 = false := by
    simp [recLE, hid, hd1, hd2, optStrLT, String.toList] at hasym ⊢
    exact ⟨hasym, fun h => absurd h hne⟩
  have hbeq : (r2.contracts == r1.contracts) = true := by
    rw [hc1, hc2]
    simp
  have hded : dedupKeepLast [r1, r2] = [r2] := by
    simp [dedupKeepLast, hbeq]
  refine ⟨filter_dedupKeepLast (sortRecords data) s, ?_, ?_⟩
  · show rowsLoop (dedupKeepLast (sortRecords [r1, r2])) = recordRows r2
    have h1 : sortRecords [r1, r2] = [r1, r2] := by
      show insRec r2 (insRec r1 []) = [r1, r2]
      simp [insRec, hle]
    rw [h1, hded, rowsLoop_singleton]
  · show rowsLoop (dedupKeepLast (sortRecords [r2, r1])) = recordRows r2
    have h1 : sortRecords [r2, r1] = [r1, r2] := by
      show insRec r1 (insRec r2 []) = [r1, r2]
      simp [insRec, hnle]
    rw [h1, hded, rowsLoop_singleton]

/-- Witness for C6 at Scenario D's records: identical contracts text, same
id, application dates one month apart. -/
theorem c6_witness :
    charListLt "2024-01-01".toList "2024-02-02".toList = true ∧
      parse_contracts [recD1, recD2] = recordRows recD2 ∧
      parse_contracts [recD2, recD1] = recordRows recD2 := by
  have h := c6_dedup_keeps_last_sorted [recD1, recD2] "[\x7b\"summa\":\"1\"\x7d]"
      recD1 recD2 "2024-01-01" "2024-02-02" rfl rfl rfl rfl rfl (by decide)
  exact ⟨by decide, h.2.1, h.2.2⟩

/- ## Claim C1 -/

theorem mem_insertId {x i : Int} {l : List Int} (h : x ∈ insertId i l) :
    x = i ∨ x ∈ l := by
  induction l with
  | nil => simpa [insertId] using h
  | cons a t ih =>
    rw [insertId] at h
    split at h
    · exact Or.inr h
    · split at h
      · rcases List.mem_cons.1 h with h2 | h2
        · exact Or.inr (List.mem_cons.2 (Or.inl h2))
        · rcases ih h2 with h3 | h3
          · exact Or.inl h3
          · exact Or.inr (List.mem_cons.2 (Or.inr h3))
      · rcases List.mem_cons.1 h with h2 | h2
        · exact Or.inl h2
        · exact Or.inr h2

theorem mem_foldl_insertId {x : Int} :
    ∀ (l acc : List Int), x ∈ l.foldl (fun acc i => insertId i acc) acc → x ∈ acc ∨ x ∈ l
  | [], _, h => Or.inl h
  | i :: is, acc, h => by
    rcases mem_foldl_insertId is (insertId i acc) h with h2 | h2
    · rcases mem_insertId h2 with h3 | h3
      · exact Or.inr (List.mem_cons.2 (Or.inl h3))
      · exact Or.inl h3
    · exact Or.inr (List.mem_cons.2 (Or.inr h2))

theorem mem_groupIds {x : Int} {df : List Row} (h : x ∈ groupIds df) :
    x ∈ df.map (fun r => r.id) := by
  rcases mem_foldl_insertId _ [] h with h2 | h2
  · cases h2
  · exact h2

theorem map_id_coerceTrue (df : List Row) :
    (coerceTrue df).map (fun r => r.id) = df.map (fun r => r.id) := by
  simp only [coerceTrue, List.map_map]
  rfl

theorem map_id_convert {b : Bool} {df crows : List Row}
    (h : convert_data_types b df = .ok crows) :
    crows.map (fun r => r.id) = df.map (fun r => r.id) := by
  rw [convert_data_types] at h
  split at h
  · injection h with h
    subst h
    exact map_id_coerceTrue df
  · split at h
    · injection h with h
      subst h
      rw [map_id_coerceTrue, List.map_map]
      rfl
    · exact absurd h (by simp)

/-- C1 (amended): an application with zero parseable contract rows does not
appear in the final output at all — the per-application date list is built
from the normalized table, so an identifier contributing no normalized row is
absent from every aggregation and from the assembled output. -/
theorem c1_zero_contract_app_absent (records : List RawRecord) (rows : List Row)
    (out : List OutRow) (i : Int)
    (hp : parse_contracts records = .ok rows)
    (hno : ∀ r ∈ rows, r.id ≠ i)
    (hout : pipeline records = .ok out) :
    ∀ o ∈ out, o.id ≠ i := by
  rw [pipeline, hp] at hout
  have hout2 : (if rows.isEmpty then (Except.error "KeyError: id" : Except String (List OutRow))
      else
        match convert_data_types false rows with
        | .error e => .error e
        | .ok crows => .ok (features_df crows)) = Except.ok out := hout
  clear hout
  split at hout2
  · exact absurd hout2 (by simp)
  · cases hc : convert_data_types false rows with
    | error e =>
      rw [hc] at hout2
      exact absurd hout2 (by simp)
    | ok crows =>
      rw [hc] at hout2
      injection hout2 with hout2
      subst hout2
      intro o ho he
      have hid : o.id ∈ groupIds crows := by
        simp only [features_df, List.mem_flatMap, List.mem_filter, List.mem_map,
          calculate_tot_claim_cnt_l180d] at ho
        obtain ⟨ti, ⟨j, hj, hje⟩, di, _, si, _, p, _, heq⟩ := ho
        rw [← heq, ← hje]
        exact hj
      have hid2 : o.id ∈ crows.map (fun r => r.id) := mem_groupIds hid
      rw [map_id_convert hc] at hid2
      rcases List.mem_map.1 hid2 with ⟨r, hr, hre⟩
      exact hno r hr (by rw [hre, he])

/-- C1 counterexample: the id-3 application has a null contracts payload and
does not appear as a row in the final output (the output holds only id 1),
contradicting the claim that it appears with the sentinel feature values. -/
theorem c1_counterexample :
    rec3.contracts = none ∧ pipeline c1recs = Except.ok c1out ∧
      c1out.map (fun o => o.id) = [1] ∧ (3 : Int) ∉ c1out.map (fun o => o.id) := by
  refine ⟨rfl, by with_unfolding_all rfl, by with_unfolding_all rfl, ?_⟩
  with_unfolding_all decide

/-- Witness for C1 (amended) at the concrete two-record input. -/
theorem c1_witness :
    parse_contracts c1recs = Except.ok c1rows ∧ (∀ r ∈ c1rows, r.id ≠ 3) ∧
      ∀ o ∈ c1out, o.id ≠ 3 := by
  refine ⟨by with_unfolding_all rfl, by with_unfolding_all decide, ?_⟩
  exact c1_zero_contract_app_absent c1recs c1rows c1out 3 (by with_unfolding_all rfl)
    (by with_unfolding_all decide) (by with_unfolding_all rfl)

/- ## Claim C2 -/

/-- C2 counterexample: on Scenario A the pipeline outputs
day_sinlastloan = -1 (the single contract has no `summa` field, so no valid
loan survives the filter), not the claimed -3. -/
theorem c2_counterexample :
    (pipeline [recA]).map (fun l => l.map (fun o => o.day_sinlastloan)) =
        Except.ok [-1] ∧
      ((-1 : Int) = -3 → False) := by
  exact ⟨by with_unfolding_all rfl, by decide⟩

/-- C2 (amended): on Scenario A the pipeline outputs tot_claim_cnt_l180d = 1
and disb_bank_loan_wo_tbc = 1000 (an int64 value here: every parsed
loan_summa is an integer literal, so the coerced column and its sums are
integer-typed), but day_sinlastloan = -1, because the contract declares only
loan_summa and no summa, so the days-since-last-loan filter keeps nothing. -/
theorem c2_scenarioA_amended :
    pipeline [recA] =
      Except.ok [⟨1, some (PV.d (daysFromCivil 2024 3 1)), 1, PyScalar.int 1000, -1⟩] := by
  with_unfolding_all rfl

/- ## Claim C3 -/

theorem disbRowOk_eq_disbSpecOk (r : Row) : disbRowOk r = disbSpecOk r := by
  rw [disbRowOk, disbSpecOk]
  cases hb : r.bank with
  | none => rfl
  | some v =>
    cases v with
    | s w =>
      cases h1 : w == "LIZ" <;> cases h2 : w == "LOM" <;>
        cases h3 : w == "MKO" <;> cases h4 : w == "SUG" <;>
        simp [excludedBanks, List.contains, List.elem, h1, h2, h3, h4]
    | i n => rfl
    | f q => rfl
    | d x => rfl
    | b x => rfl
    | j x => rfl

theorem sum_intCast_list :
    ∀ (l : List ℚ), (∀ q ∈ l, ∃ n : Int, q = (n : ℚ)) → ∃ m : Int, l.sum = (m : ℚ)
  | [], _ => ⟨0, by simp⟩
  | q :: qs, h => by
    obtain ⟨n, hn⟩ := h q (List.mem_cons_self q qs)
    obtain ⟨m, hm⟩ := sum_intCast_list qs (fun x hx => h x (List.mem_cons_of_mem _ hx))
    exact ⟨n + m, by rw [List.sum_cons, hn, hm]; push_cast; ring⟩

/-- C3: for every application group, the disb_bank_loan_wo_tbc value equals
the specification-side recipe: filter to rows with a present, non-excluded
bank and a present contract date; -1 if nothing survives; else the sum of
loan_summa over the survivors, with a non-positive sum giving -3.  The
group's column dtype only affects the int/float tag, never the value. -/
theorem c3_disb_matches_spec (df : List Row) (i : Int) :
    (sum_loans_wo_tbc (loanColFloat df) (groupRows i df)).toRat =
      disbSpec (groupRows i df) := by
  simp only [sum_loans_wo_tbc, disbSpec]
  have hfil : (groupRows i df).filter disbRowOk = (groupRows i df).filter disbSpecOk :=
    List.filter_congr (fun r _ => disbRowOk_eq_disbSpecOk r)
  rw [hfil]
  cases he : ((groupRows i df).filter disbSpecOk).isEmpty with
  | true => simp [PyScalar.toRat]
  | false =>
    simp only [Bool.false_eq_true, if_false]
    have hsum : ((((groupRows i df).filter disbSpecOk).map (fun r => r.loan_summa)).filterMap
        cellNum).sum =
        (((groupRows i df).filter disbSpecOk).filterMap (fun r => cellNum r.loan_summa)).sum := by
      rw [List.filterMap_map]
      rfl
    rw [hsum]
    by_cases h0 :
        0 < (((groupRows i df).filter disbSpecOk).filterMap (fun r => cellNum r.loan_summa)).sum
    · rw [if_pos h0, if_neg (not_le.2 h0)]
      cases hf : loanColFloat df with
      | true => rfl
      | false =>
        have hint : ∃ m : Int,
            (((groupRows i df).filter disbSpecOk).filterMap
              (fun r => cellNum r.loan_summa)).sum = (m : ℚ) := by
          apply sum_intCast_list
          intro q hq
          rcases List.mem_filterMap.1 hq with ⟨r, hr, hcell⟩
          have hrdf : r ∈ df := by
            have h5 := List.mem_filter.1 hr
            exact (List.mem_filter.1 h5.1).1
          have hall : df.all (fun r =>
              match r.loan_summa with
              | some (PV.i _) => true
              | _ => false) = true := by
            rw [loanColFloat] at hf
            cases hx : df.all (fun r =>
                match r.loan_summa with
                | some (PV.i _) => true
                | _ => false) with
            | true => rfl
            | false => rw [hx] at hf; exact Bool.noConfusion hf
          have hr2 := List.all_eq_true.1 hall r hrdf
          cases hcl : r.loan_summa with
          | none =>
            rw [hcl] at hcell
            exact Option.noConfusion hcell
          | some v =>
            cases v with
            | i n =>
              rw [hcl] at hcell
              have hcell2 : (some ((n : ℚ)) : Option ℚ) = some q := hcell
              injection hcell2 with hq2
              exact ⟨n, hq2.symm⟩
            | s w => rw [hcl] at hr2; exact Bool.noConfusion hr2
            | f q2 => rw [hcl] at hr2; exact Bool.noConfusion hr2
            | d x => rw [hcl] at hr2; exact Bool.noConfusion hr2
            | b x => rw [hcl] at hr2; exact Bool.noConfusion hr2
            | j x => rw [hcl] at hr2; exact Bool.noConfusion hr2
        obtain ⟨m, hm⟩ := hint
        show ((PyScalar.int _).toRat) = _
        rw [PyScalar.toRat, hm]
        simp
    · rw [if_neg h0, if_pos (not_lt.1 h0)]
      rfl

/- ## Claim C4 -/

/-- C4: for every application group, day_sinlastloan is -1 when no row has a
present, strictly positive summa; otherwise, with the group's application
date present and the maximum contract date over the surviving rows present,
it is the day difference (application date minus last loan date) when
positive and -3 otherwise; and on Scenario E the pipeline outputs 31. -/
theorem c4_day_sinlastloan (rows : List Row) (a dd : Int) :
    (dayValidLoans rows = [] → days_since_last_loan rows = -1) ∧
      (groupAppDate rows = some a → lastLoanDate rows = some dd →
        days_since_last_loan rows = if 0 < a - dd then a - dd else -3) ∧
      pipeline [recE] =
        Except.ok [⟨5, some (PV.d (daysFromCivil 2024 2 1)), -3, PyScalar.int (-1), 31⟩] := by
  refine ⟨?_, ?_, by with_unfolding_all rfl⟩
  · intro h
    simp only [days_since_last_loan, h]
    rfl
  · intro ha hl
    have hne : (dayValidLoans rows).isEmpty = false := by
      cases hv : dayValidLoans rows with
      | nil =>
        rw [lastLoanDate, hv] at hl
        exact Option.noConfusion hl
      | cons x xs => rfl
    simp only [days_since_last_loan, hne, ha, hl, Bool.false_eq_true, if_false]

/-- Witness for C4 at Scenario E's converted rows: the application date is
2024-02-01, the last loan date 2024-01-01, and the output 31 days. -/
theorem c4_witness :
    groupAppDate crowsE = some (daysFromCivil 2024 2 1) ∧
      lastLoanDate crowsE = some (daysFromCivil 2024 1 1) ∧
      days_since_last_loan crowsE = 31 := by
  refine ⟨by with_unfolding_all rfl, by with_unfolding_all rfl, ?_⟩
  have h := (c4_day_sinlastloan crowsE 19754 19723).2.1 (by with_unfolding_all rfl)
    (by with_unfolding_all rfl)
  rw [h]
  norm_num

/- ## Claim C5 -/

theorem countP_ext {α : Type} (p q : α → Bool) :
    ∀ (l : List α), (∀ x ∈ l, p x = q x) → l.countP p = l.countP q
  | [], _ => rfl
  | x :: xs, h => by
    rw [List.countP_cons, List.countP_cons, h x (List.mem_cons_self x xs),
      countP_ext p q xs (fun y hy => h y (List.mem_cons_of_mem _ hy))]

/-- C5: for a group with a present application date A, tot_claim_cnt_l180d
equals the count of rows whose claim date lies in [A - 180, A] when that
count is at least 1 and -3 when it is 0; and for every group the output is
never 0. -/
theorem c5_tot_claim (rows rows2 : List Row) (a : Int)
    (h : groupAppDate rows = some a) :
    claims_in_last_180_days rows =
        (if 1 ≤ specWindowCount a rows then (specWindowCount a rows : Int) else -3) ∧
      claims_in_last_180_days rows2 ≠ 0 := by
  constructor
  · simp only [claims_in_last_180_days, h, specWindowCount]
    have hc := countP_ext
      (fun r =>
        match r.claim_date, (some a : Option Int) with
        | some (PV.d c), some a => decide (a - 180 ≤ c) && decide (c ≤ a)
        | _, _ => false)
      (fun r =>
        match r.claim_date with
        | some (PV.d c) => decide (a - 180 ≤ c ∧ c ≤ a)
        | _ => false)
      rows
      (by
        intro x _
        cases hcd : x.claim_date with
        | none => simp [hcd]
        | some v => cases v <;> simp [hcd])
    rw [hc]
    cases hn : rows.countP (fun r =>
        match r.claim_date with
        | some (PV.d c) => decide (a - 180 ≤ c ∧ c ≤ a)
        | _ => false) with
    | zero => simp
    | succ k => simp
  · simp only [claims_in_last_180_days]
    split
    · next hpos => omega
    · decide

/-- Witness for C5 at Scenario A's converted rows (one claim inside the
window, count 1). -/
theorem c5_witness :
    groupAppDate crowsA = some 19783 ∧
      (claims_in_last_180_days crowsA =
          (if 1 ≤ specWindowCount 19783 crowsA then (specWindowCount 19783 crowsA : Int)
           else -3) ∧
        claims_in_last_180_days crowsA ≠ 0) :=
  ⟨by with_unfolding_all rfl, c5_tot_claim crowsA crowsA 19783 (by with_unfolding_all rfl)⟩

/- ## Claim C7 -/

theorem cellDMY_idem (c : Option PV) : cellDMY (cellDMY c) = cellDMY c := by
  cases c with
  | none => rfl
  | some v =>
    cases v with
    | s w =>
      show cellDMY ((parseDMY w).map PV.d) = (parseDMY w).map PV.d
      cases hp : parseDMY w with
      | none => rfl
      | some x => rfl
    | i n => rfl
    | f q => rfl
    | d x => rfl
    | b b2 => rfl
    | j jv => rfl

theorem numCell_true_idem (c : Option PV) : numCell true (numCell true c) = numCell true c := by
  cases hn : numRead c with
  | none =>
    have h1 : numCell true c = none := by rw [numCell, hn]
    rw [h1]
    rfl
  | some p =>
    obtain ⟨q, t⟩ := p
    have h1 : numCell true c = some (PV.i q.num) := by rw [numCell, hn]; rfl
    rw [h1]
    show some (PV.i ((q.num : ℚ)).num) = some (PV.i q.num)
    rw [Rat.num_intCast]

theorem numCell_false_idem (c : Option PV) :
    numCell false (numCell false c) = numCell false c := by
  cases hn : numRead c with
  | none =>
    have h1 : numCell false c = none := by rw [numCell, hn]
    rw [h1]
    rfl
  | some p =>
    obtain ⟨q, t⟩ := p
    have h1 : numCell false c = some (PV.f q) := by rw [numCell, hn]; rfl
    rw [h1]
    rfl

theorem numCell_idem (b : Bool) (c : Option PV) : numCell b (numCell b c) = numCell b c := by
  cases b
  · exact numCell_false_idem c
  · exact numCell_true_idem c

theorem numColInt_map_true {cells : List (Option PV)} (h : numColInt cells = true) :
    numColInt (cells.map (numCell true)) = true := by
  rw [numColInt, List.all_eq_true] at h
  rw [numColInt, List.all_eq_true]
  intro c2 hc2
  obtain ⟨c, hc, rfl⟩ := List.mem_map.1 hc2
  have h2 := h c hc
  cases hn : numRead c with
  | none => rw [hn] at h2; exact Bool.noConfusion h2
  | some p =>
    obtain ⟨q, t⟩ := p
    cases t with
    | false => rw [hn] at h2; exact Bool.noConfusion h2
    | true =>
      have h1 : numCell true c = some (PV.i q.num) := by rw [numCell, hn]; rfl
      rw [h1]
      rfl

theorem numColInt_map_false {cells : List (Option PV)}
    (h : numColInt cells = false) :
    numColInt (cells.map (numCell false)) = false := by
  rw [numColInt, List.all_eq_false] at h
  obtain ⟨c, hc, hfail⟩ := h
  rw [numColInt, List.all_eq_false]
  refine ⟨numCell false c, List.mem_map_of_mem _ hc, ?_⟩
  cases hn : numRead c with
  | none =>
    have h1 : numCell false c = none := by rw [numCell, hn]
    rw [h1]
    exact fun hx => Bool.noConfusion hx
  | some p =>
    obtain ⟨q, t⟩ := p
    cases t with
    | false =>
      have h1 : numCell false c = some (PV.f q) := by rw [numCell, hn]; rfl
      rw [h1]
      exact fun hx => Bool.noConfusion hx
    | true =>
      rw [hn] at hfail
      simp at hfail

theorem numColInt_map_idem (cells : List (Option PV)) :
    numColInt (cells.map (numCell (numColInt cells))) = numColInt cells := by
  cases h : numColInt cells with
  | true => exact numColInt_map_true h
  | false => exact numColInt_map_false h

theorem coerceCommon_idem (sInt lInt : Bool) (r : Row) :
    coerceCommon sInt lInt (coerceCommon sInt lInt r) = coerceCommon sInt lInt r := by
  simp [coerceCommon, cellDMY_idem, numCell_idem]

theorem coerceTrue_idem (df : List Row) : coerceTrue (coerceTrue df) = coerceTrue df := by
  have hsumma : (coerceTrue df).map (fun r => r.summa) =
      (df.map (fun r => r.summa)).map
        (numCell (numColInt (df.map (fun r => r.summa)))) := by
    simp only [coerceTrue, List.map_map]
    rfl
  have hloan : (coerceTrue df).map (fun r => r.loan_summa) =
      (df.map (fun r => r.loan_summa)).map
        (numCell (numColInt (df.map (fun r => r.loan_summa)))) := by
    simp only [coerceTrue, List.map_map]
    rfl
  have hs : numColInt ((coerceTrue df).map (fun r => r.summa)) =
      numColInt (df.map (fun r => r.summa)) := by
    rw [hsumma]
    exact numColInt_map_idem _
  have hl : numColInt ((coerceTrue df).map (fun r => r.loan_summa)) =
      numColInt (df.map (fun r => r.loan_summa)) := by
    rw [hloan]
    exact numColInt_map_idem _
  have houter : coerceTrue (coerceTrue df) =
      (coerceTrue df).map
        (coerceCommon (numColInt ((coerceTrue df).map (fun r => r.summa)))
          (numColInt ((coerceTrue df).map (fun r => r.loan_summa)))) := rfl
  have hinner : coerceTrue df =
      df.map
        (coerceCommon (numColInt (df.map (fun r => r.summa)))
          (numColInt (df.map (fun r => r.loan_summa)))) := rfl
  rw [houter, hs, hl]
  conv_lhs => rw [hinner]
  rw [List.map_map]
  conv_rhs => rw [hinner]
  apply List.map_congr_left
  intro r _
  exact coerceCommon_idem _ _ r

/-- C7 (amended): only the date-format and numeric coercions — the
`by_explode = True` variant of `convert_data_types`, which skips the id and
application-date handling — are idempotent: re-running that variant on its
own output is a no-op.  (The full `by_explode = False` step is not: its
`.str` accessor on the already-converted application-date column raises, see
the counterexample.) -/
theorem c7_by_explode_idempotent (df df2 : List Row)
    (h : convert_data_types true df = Except.ok df2) :
    convert_data_types true df2 = Except.ok df2 := by
  have h0 : convert_data_types true df = Except.ok (coerceTrue df) := rfl
  rw [h0] at h
  injection h with h
  subst h
  show Except.ok (coerceTrue (coerceTrue df)) = Except.ok (coerceTrue df)
  rw [coerceTrue_idem]

/-- C7 counterexample: applying the full coercion step (the pipeline's
`by_explode = False` call) to a table it has already coerced is not a no-op —
it raises `AttributeError`, because the application-date column is now
datetime-typed and no longer supports the `.str` accessor. -/
theorem c7_counterexample :
    convert_data_types false c7df0 = Except.ok c7df1 ∧
      convert_data_types false c7df1 =
        Except.error "AttributeError: Can only use .str accessor with string values" ∧
      convert_data_types false c7df1 ≠ Except.ok c7df1 := by
  refine ⟨by with_unfolding_all rfl, by with_unfolding_all rfl, ?_⟩
  intro h
  rw [show convert_data_types false c7df1 =
      Except.error "AttributeError: Can only use .str accessor with string values" from
        by with_unfolding_all rfl] at h
  exact Except.noConfusion h

/-- Witness for C7 (amended) at the concrete one-row table. -/
theorem c7_witness :
    convert_data_types true c7df0 = Except.ok (coerceTrue c7df0) ∧
      convert_data_types true (coerceTrue c7df0) = Except.ok (coerceTrue c7df0) :=
  ⟨rfl, c7_by_explode_idempotent c7df0 (coerceTrue c7df0) rfl⟩

/- ## Claim C8 -/

/-- C8 counterexample: on Scenario B (the only contract is from the excluded
bank MKO) the disb_bank_loan_wo_tbc result column consists of the sentinel
-1 as a Python/NumPy integer, not a floating-point value: no group produced
a float, so pandas infers an integer column. -/
theorem c8_counterexample :
    pipeline [recB] =
        Except.ok [⟨2, some (PV.d (daysFromCivil 2024 3 1)), -3, PyScalar.int (-1), -1⟩] ∧
      (PyScalar.int (-1)).isFloat = false :=
  ⟨by with_unfolding_all rfl, rfl⟩

/-- C8 (amended): the disb_bank_loan_wo_tbc column always has a single
numeric type — all float or all integer — but it is float only when at least
one group's raw result is a float (a surviving positive sum from a
float-typed loan_summa column); when every raw per-group result is an
integer (in particular when every group yields a sentinel), the column stays
integer-typed and the sentinels are emitted as -1 and -3, not -1.0 and -3.0. -/
theorem c8_disb_column_dtype (t : List Row) :
    ((∀ p ∈ calculate_disb_bank_loan_wo_tbc t, p.2.isFloat = true) ∨
      (∀ p ∈ calculate_disb_bank_loan_wo_tbc t, p.2.isFloat = false)) ∧
      ((∀ p ∈ disbRawResults t, p.2.isFloat = false) →
        calculate_disb_bank_loan_wo_tbc t = disbRawResults t) := by
  simp only [calculate_disb_bank_loan_wo_tbc]
  split
  next hf =>
    constructor
    · left
      intro p hp
      obtain ⟨q2, _, hq⟩ := List.mem_map.1 hp
      rw [← hq]
      rfl
    · intro hall
      obtain ⟨p, hp, hpf⟩ := List.any_eq_true.1 hf
      rw [hall p hp] at hpf
      exact Bool.noConfusion hpf
  next hf =>
    have hf2 : (disbRawResults t).any (fun p => p.2.isFloat) = false :=
      Bool.eq_false_iff.2 hf
    constructor
    · right
      intro p hp
      have hnp := List.any_eq_false.1 hf2 p hp
      cases hx : p.2.isFloat with
      | false => rfl
      | true => exact absurd hx hnp
    · intro _
      rfl

/-- Witness for C8 (amended) at Scenario B's converted table, where the
single raw result is the integer sentinel -1 and no promotion happens. -/
theorem c8_witness :
    (∀ p ∈ disbRawResults crowsB, p.2.isFloat = false) ∧
      calculate_disb_bank_loan_wo_tbc crowsB = disbRawResults crowsB := by
  have hall : ∀ p ∈ disbRawResults crowsB, p.2.isFloat = false := by
    with_unfolding_all decide
  exact ⟨hall, (c8_disb_column_dtype crowsB).2 hall⟩

/- ## Claim C9 -/

theorem recordRows_skippable {r : RawRecord} (h : skippableContracts r) :
    recordRows r = Except.ok [] := by
  rcases h with h | h | ⟨s, e, hs, he⟩
  · rw [recordRows, h]
  · simp [recordRows, h]
  · simp only [recordRows, hs]
    by_cases hse : s = ""
    · simp [hse]
    · simp [hse, he]

theorem rowsLoop_all_skipped {l : List RawRecord}
    (h : ∀ r ∈ l, recordRows r = Except.ok []) : rowsLoop l = Except.ok [] := by
  induction l with
  | nil => rfl
  | cons r rs ih =>
    have h1 := h r (List.mem_cons_self r rs)
    have h2 := ih (fun x hx => h x (List.mem_cons_of_mem _ hx))
    rw [rowsLoop, h1, h2]
    rfl

/-- C9 (amended): for raw records whose contracts text is null, empty, or
not decodable as JSON, the Normalizer emits zero contract rows and no
exception escapes — the whole parse succeeds with an empty table when every
record is of that kind.  (A payload that decodes to a JSON value of the
wrong top-level shape is different: it raises an uncaught exception, see the
counterexample.) -/
theorem c9_skippable_records_silent (records : List RawRecord)
    (h : ∀ r ∈ records, skippableContracts r) :
    parse_contracts records = Except.ok [] := by
  rw [parse_contracts]
  apply rowsLoop_all_skipped
  intro r hr
  exact recordRows_skippable (h r (mem_sortRecords (mem_dedupKeepLast hr)))

/-- C9 counterexample: decodable payloads of the wrong shape are not
recovered.  A bare number (`"5"`) and the decodable extension literal
(`"NaN"`) make `parse_contracts` raise an uncaught `TypeError` (iterating a
non-iterable decoded value), and an array with a non-object element
(`"[5]"`) raises an uncaught `AttributeError` (`.get` on a non-dict) —
none of them contributes zero rows silently. -/
theorem c9_counterexample :
    (parse_contracts [rec9] = Except.error "TypeError: object is not iterable" ∧
      jsonParse "5" = Except.ok (Jval.int 5)) ∧
      (parse_contracts [rec9arr] =
          Except.error "AttributeError: object has no attribute get" ∧
        jsonParse "[5]" = Except.ok (Jval.arr [Jval.int 5])) ∧
      (parse_contracts [rec9nan] = Except.error "TypeError: object is not iterable" ∧
        jsonParse "NaN" = Except.ok Jval.nan) :=
  ⟨⟨rfl, rfl⟩, ⟨rfl, rfl⟩, ⟨rfl, rfl⟩⟩

/-- Witness for C9 (amended) at the three degenerate records. -/
theorem c9_witness :
    (∀ r ∈ recs9w, skippableContracts r) ∧ parse_contracts recs9w = Except.ok [] := by
  have h : ∀ r ∈ recs9w, skippableContracts r := by
    intro r hr
    simp only [recs9w, List.mem_cons, List.not_mem_nil, or_false] at hr
    rcases hr with rfl | rfl | rfl
    · exact Or.inl rfl
    · exact Or.inr (Or.inl rfl)
    · exact Or.inr (Or.inr ⟨"not json", "JSONDecodeError: Expecting value", rfl, rfl⟩)
  exact ⟨h, c9_skippable_records_silent recs9w h⟩

/- ## Claim C10 -/

/-- C10: in a group where at least one row survives the positive-summa filter
but every surviving row has a missing contract date, day_sinlastloan is -3
(not -1): the maximum over only-missing contract dates is missing, the day
difference is missing, and a missing difference fails the strictly-positive
test, taking the -3 branch. -/
theorem c10_missing_dates_give_minus3 (rows : List Row)
    (h1 : dayValidLoans rows ≠ [])
    (h2 : ∀ r ∈ dayValidLoans rows, r.contract_date = none) :
    days_since_last_loan rows = -3 := by
  have hmax : lastLoanDate rows = none := by
    rw [lastLoanDate]
    have hfm : (dayValidLoans rows).filterMap (fun r =>
        match r.contract_date with
        | some (PV.d x) => some x
        | _ => none) = [] := by
      rw [List.filterMap_eq_nil_iff]
      intro r hr
      rw [h2 r hr]
    rw [hfm]
    rfl
  have hne : (dayValidLoans rows).isEmpty = false := by
    cases hv : dayValidLoans rows with
    | nil => exact absurd hv h1
    | cons x xs => rfl
  simp only [days_since_last_loan, hne, hmax, Bool.false_eq_true, if_false]
  cases groupAppDate rows <;> rfl

/-- Witness for C10 at the concrete one-row group. -/
theorem c10_witness :
    dayValidLoans c10rows = c10rows ∧ days_since_last_loan c10rows = -3 := by
  have hall : dayValidLoans c10rows = c10rows := by with_unfolding_all rfl
  refine ⟨hall, ?_⟩
  apply c10_missing_dates_give_minus3 c10rows
  · rw [hall]
    exact List.cons_ne_nil _ _
  · rw [hall]
    intro r hr
    rcases List.mem_cons.1 hr with rfl | h0
    · rfl
    · cases h0

end ParseData
